import Mathlib

/-!
Verification development for the cbc-casper repository.

The Python sources under verification are:
  casper/protocols/integer/bet.py     (integer-protocol Bet)
  casper/protocols/order/order_view.py (OrderView and its safety update)
  simulations/testing_language.py     (TestLangCBC scenario harness)
  tests/casper/blockchain/test_block.py (blockchain block tests)

Pure functions are translated to Lean functions; Python exceptions become
Except / explicit error components; mutable harness state becomes explicit
state passing.  Parts of the repository that the claims depend on but whose
code is not available (the Message and Block base classes, the blockchain
estimator, the Network and the CliqueOracle) are modelled from the spec and
are marked as such in their doc comments.
-/

namespace CasperSpec

/-! ### Python value shapes for the integer protocol

`bet.py` checks `isinstance(estimate, int)` at construction and inside
`conflicts_with`.  To express "the estimate is not an integer" we embed the
possible Python argument shapes as a small inductive type. -/

inductive PyVal where
  | int (n : Int)
  | str (s : String)
  | pynone
  | list (l : List Int)

deriving instance DecidableEq for PyVal

def PyVal.isInt : PyVal → Bool
  | .int _ => true
  | _ => false

/-- The Message field layout (estimate, justification, sender,
sequence_number, display_height); the justification is embedded as an
association list from validator name to cited message hash. -/
structure Bet where
  estimate : PyVal
  justification : List (Nat × Nat)
  sender : Nat
  sequence_number : Nat
  display_height : Nat

deriving instance DecidableEq for Bet

/-- Embedding of `Bet.__init__` from casper/protocols/integer/bet.py: the
`assert isinstance(estimate, int)` runs before the superclass constructor,
so a non-integer estimate fails with an AssertionError and no Bet value is
produced. -/
def Bet.init (estimate : PyVal) (justification : List (Nat × Nat))
    (sender sequence_number display_height : Nat) : Except String Bet :=
  if estimate.isInt then
    Except.ok ⟨estimate, justification, sender, sequence_number, display_height⟩
  else
    Except.error "AssertionError: estimate should be an integer"

/-- Embedding of `Bet.conflicts_with` from casper/protocols/integer/bet.py:
asserts the other estimate is an integer, then returns
`self.estimate != message.estimate`. -/
def Bet.conflicts_with (self : Bet) (message : Bet) : Except String Bool :=
  if message.estimate.isInt then
    Except.ok (decide (self.estimate ≠ message.estimate))
  else
    Except.error "AssertionError: estimate should be an integer"

/-! ### Blockchain blocks and the ancestor test

Modelled from the spec: the blockchain Block class is not among the sources,
only its tests are.  Per the spec, a block's `estimate` is its parent
pointer (None for genesis), `is_in_blockchain(other)` is the ancestor test,
and height is 1 for genesis and parent height + 1 otherwise. -/

inductive Chain where
  | genesis (creator : Nat)
  | block (parent : Chain) (creator : Nat) (seq : Nat)

deriving instance DecidableEq for Chain

/-- Modelled from the spec: `Block.is_in_blockchain(block)` — true when
`self` equals `block` or is an ancestor of `block` along parent pointers. -/
def Chain.is_in_blockchain (self : Chain) (other : Chain) : Bool :=
  if self = other then true
  else
    match other with
    | .genesis _ => false
    | .block parent _ _ => self.is_in_blockchain parent

/-- Modelled from the spec: block height, 1 at genesis, parent height + 1
per extension. -/
def Chain.height : Chain → Nat
  | .genesis _ => 1
  | .block parent _ _ => parent.height + 1

/-! ### Message copies

Modelled from the spec: the Message base class is not among the sources.
Per the spec, message equality is by content (sender, sequence_number,
estimate, justification), never by object identity.  A shallow copy rebuilds
the top-level record with the same field values; a deep copy additionally
rebuilds the estimate chain and the justification entries recursively. -/

structure OMessage where
  estimate : Option Chain
  justification : List (Nat × Nat)
  sender : Nat
  sequence_number : Nat

deriving instance DecidableEq for OMessage

/-- Modelled from the spec: content equality of messages. -/
def message_eq (a b : OMessage) : Bool :=
  decide (a.sender = b.sender) && decide (a.sequence_number = b.sequence_number) &&
  decide (a.estimate = b.estimate) && decide (a.justification = b.justification)

/-- Modelled from the spec: `copy.copy` — a new top-level object holding the
same field values (sub-objects shared). -/
def shallow_copy (m : OMessage) : OMessage :=
  { estimate := m.estimate
    justification := m.justification
    sender := m.sender
    sequence_number := m.sequence_number }

def deep_copy_chain : Chain → Chain
  | .genesis c => .genesis c
  | .block p c s => .block (deep_copy_chain p) c s

/-- Modelled from the spec: `copy.deepcopy` — recursively rebuilds the
estimate chain and the justification entries. -/
def deep_copy (m : OMessage) : OMessage :=
  { estimate := m.estimate.map deep_copy_chain
    justification := m.justification.map (fun p => (p.1, p.2))
    sender := m.sender
    sequence_number := m.sequence_number }

/-! ### OrderView and its safety update

From casper/protocols/order/order_view.py.  The order-protocol Bet class and
the CliqueOracle are not among the sources; the Bet estimate (an ordered
sequence of items) and its conflict rule are modelled from the spec, and the
CliqueOracle is abstracted as a function from the inspected bet to its fault
tolerance (the view and validator set arguments of the oracle are fixed for
the duration of one `update_safe_estimates` call). -/

structure OrderBet where
  estimate : List String
  sender : Nat
  sequence_number : Nat

deriving instance DecidableEq for OrderBet

/-- Modelled from the spec: order-protocol conflict — conflict iff the
ordered sequences differ. -/
def OrderBet.conflicts_with (self other : OrderBet) : Bool :=
  decide (self.estimate ≠ other.estimate)

/-- The OrderView fields touched by `update_safe_estimates`:
`latest_messages` (its values, in iteration order), plus the two
finalization fields set in `OrderView.__init__`. -/
structure OrderView where
  latest_messages : List OrderBet
  last_finalized_estimate : Option OrderBet
  last_fault_tolerance : Int

deriving instance DecidableEq for OrderView

/-- Embedding of `OrderView.__init__`: the finalization fields start as
None and 0. -/
def OrderView.mk_init (latest : List OrderBet) : OrderView :=
  { latest_messages := latest
    last_finalized_estimate := Option.none
    last_fault_tolerance := 0 }

/-- The loop body of `OrderView.update_safe_estimates`: for each latest
message compute its fault tolerance; on the first positive one, assert that
any previously finalized estimate does not conflict with it (an exception
otherwise), record the bet and its fault tolerance, and break. -/
def update_loop (oracle : OrderBet → Int) (v : OrderView) :
    List OrderBet → Except String OrderView
  | [] => Except.ok v
  | bet :: rest =>
    if oracle bet > 0 then
      match v.last_finalized_estimate with
      | Option.some lfe =>
        if lfe.conflicts_with bet then
          Except.error "AssertionError: finalized estimate conflict"
        else
          Except.ok { v with last_fault_tolerance := oracle bet
                             last_finalized_estimate := Option.some bet }
      | Option.none =>
        Except.ok { v with last_fault_tolerance := oracle bet
                           last_finalized_estimate := Option.some bet }
    else update_loop oracle v rest

/-- Embedding of `OrderView.update_safe_estimates`, iterating over the
values of `latest_messages`. -/
def OrderView.update_safe_estimates (oracle : OrderBet → Int) (v : OrderView) :
    Except String OrderView :=
  update_loop oracle v v.latest_messages

/-- The first latest message whose oracle fault tolerance is positive. -/
def firstSafe (oracle : OrderBet → Int) : List OrderBet → Option OrderBet
  | [] => Option.none
  | bet :: rest => if oracle bet > 0 then Option.some bet else firstSafe oracle rest

/-! ### The scenario token parser

From simulations/testing_language.py.  The regex
`([A-Za-z]*)([0-9]*)([-]*)([A-Za-z0-9]*)` is four greedy, possibly empty
character-class runs; since every group may be empty the greedy first
attempt always succeeds with no backtracking, so `re.match` yields exactly
the maximal run of letters, then digits, then dashes, then alphanumerics
from the start of the token.  `parse` then raises the Bad-token ValueError
when the four groups do not reconstruct the whole token; otherwise, when the
digit group is nonempty, it resolves the validator by name — converting the
KeyError of `ValidatorSet.get_validator_by_name` (modelled from the spec:
lookup by name that fails on an unknown name) into a ValueError — and only
then looks the letter group up in the handler table, where an unregistered
letter raises a KeyError. -/

def isLetterAZ (c : Char) : Bool :=
  (decide ('A' ≤ c) && decide (c ≤ 'Z')) || (decide ('a' ≤ c) && decide (c ≤ 'z'))

def isDigit09 (c : Char) : Bool :=
  decide ('0' ≤ c) && decide (c ≤ '9')

def isDashChar (c : Char) : Bool := c = '-'

def isAlnumChar (c : Char) : Bool := isLetterAZ c || isDigit09 c

/-- The four groups produced by `re.match(TOKEN_PATTERN, token)`: maximal
greedy runs of the four character classes, in order. -/
def tokenGroups (token : List Char) : List Char × List Char × List Char × List Char :=
  let p1 := token.span isLetterAZ
  let p2 := p1.2.span isDigit09
  let p3 := p2.2.span isDashChar
  let p4 := p3.2.span isAlnumChar
  (p1.1, p2.1, p3.1, p4.1)

def digitsToNat (l : List Char) : Nat :=
  l.foldl (fun acc c => acc * 10 + (c.toNat - 48)) 0

/-- The handler keys registered in `TestLangCBC.__init__`. -/
def HANDLER_KEYS : List String := ["B", "S", "C", "U", "H", "RR", "R"]

inductive ParseOutcome where
  | badToken
  | validatorMissing
  | keyError
  | dispatch (letter : String) (validator : Option Nat) (name : String)

deriving instance DecidableEq for ParseOutcome

/-- Embedding of the per-token control flow of `TestLangCBC.parse`:
Bad-token ValueError when the groups do not reconstruct the token; a
validator-not-found ValueError when the digit group is nonempty and names no
validator in the set; a KeyError from the handler-table lookup when the
letter group is not a registered key; otherwise the handler is dispatched. -/
def parse_token (validatorNames : List Nat) (token : List Char) : ParseOutcome :=
  let g := tokenGroups token
  if g.1 ++ g.2.1 ++ g.2.2.1 ++ g.2.2.2 ≠ token then ParseOutcome.badToken
  else if g.2.1 ≠ [] ∧ digitsToNat g.2.1 ∉ validatorNames then
    ParseOutcome.validatorMissing
  else if String.mk g.1 ∉ HANDLER_KEYS then ParseOutcome.keyError
  else
    ParseOutcome.dispatch (String.mk g.1)
      (if g.2.1 = [] then Option.none else Option.some (digitsToNat g.2.1))
      (String.mk g.2.2.2)

/-- The reconstruction test of `parse`: whether the four groups concatenate
back to the whole token. -/
def reconstructs (token : List Char) : Prop :=
  (tokenGroups token).1 ++ (tokenGroups token).2.1 ++ (tokenGroups token).2.2.1
      ++ (tokenGroups token).2.2.2 = token

instance (token : List Char) : Decidable (reconstructs token) := by
  unfold reconstructs
  infer_instance

/-! ### The TestLangCBC harness over the blockchain protocol

From simulations/testing_language.py.  The Block class, the Network and the
blockchain estimator are not among the sources; blocks, views and the
GHOST-style fork choice are modelled from the spec.  A block records its id,
its parent pointer (its `estimate`, None for genesis), the id list of its
chain back to genesis (so height is the chain length, 1 at genesis), its
sender and its sequence number.  Each handler is translated as a function
from harness state to (state, optional raised error), mutating only after
its validations, exactly in source order. -/

structure HBlock where
  id : Nat
  parent : Option Nat
  chain : List Nat
  sender : Option Nat
  sequence_number : Nat

deriving instance DecidableEq for HBlock

def HBlock.height (b : HBlock) : Nat := b.chain.length

def genesisBlock : HBlock :=
  { id := 0, parent := Option.none, chain := [0],
    sender := Option.none, sequence_number := 0 }

/-- Modelled from the spec: blockchain conflict — conflict iff neither block
is an ancestor of the other along parent pointers. -/
def HBlock.conflicts_with (b1 b2 : HBlock) : Bool :=
  decide (¬ (b1.id ∈ b2.chain ∨ b2.id ∈ b1.chain))

inductive TLErr where
  | valueError (msg : String)
  | exception (msg : String)
  | assertionError (msg : String)

deriving instance DecidableEq for TLErr

/-- The harness state of TestLangCBC: the validator set (name, weight,
sorted by name), each validator's view message list (in arrival order), each
validator's last finalized block, the name-to-block mapping, the blockchain
edge list and the next fresh block id. -/
structure TLState where
  validators : List (Nat × Nat)
  views : List (Nat × List HBlock)
  last_finalized : List (Nat × Option HBlock)
  blocks : List (String × HBlock)
  blockchain : List (HBlock × HBlock)
  nextId : Nat

deriving instance DecidableEq for TLState

def TLState.hasValidator (st : TLState) (v : Nat) : Bool :=
  (st.validators.lookup v).isSome

def TLState.weightOf (st : TLState) (v : Nat) : Nat :=
  (st.validators.lookup v).getD 0

def TLState.viewOf (st : TLState) (v : Nat) : List HBlock :=
  (st.views.lookup v).getD []

def updateAssoc {α : Type} (k : Nat) (val : α) :
    List (Nat × α) → List (Nat × α)
  | [] => [(k, val)]
  | (k2, v2) :: rest =>
    if k2 = k then (k, val) :: rest else (k2, v2) :: updateAssoc k val rest

def TLState.setView (st : TLState) (v : Nat) (msgs : List HBlock) : TLState :=
  { st with views := updateAssoc v msgs st.views }

/-- The latest (highest sequence number) message of sender v among msgs. -/
def latestOf (v : Nat) (msgs : List HBlock) : Option HBlock :=
  msgs.foldl
    (fun best b =>
      if b.sender = Option.some v then
        match best with
        | Option.none => Option.some b
        | Option.some cur =>
          if b.sequence_number > cur.sequence_number then Option.some b
          else Option.some cur
      else best)
    Option.none

/-- The latest-message-per-sender mapping of a view list. -/
def latestMessages (st : TLState) (msgs : List HBlock) : List (Nat × HBlock) :=
  st.validators.filterMap (fun p => (latestOf p.1 msgs).map (fun b => (p.1, b)))

/-- Modelled from the spec: the weight supporting a block in the GHOST fork
choice — the total weight of validators whose latest message has the block
in its chain (i.e. lies in the block's descendant set or is the block). -/
def scoreOf (st : TLState) (latest : List (Nat × HBlock)) (blockId : Nat) : Nat :=
  latest.foldl
    (fun acc p => if blockId ∈ p.2.chain then acc + st.weightOf p.1 else acc) 0

def childrenOf (msgs : List HBlock) (b : HBlock) : List HBlock :=
  msgs.filter (fun c => c.parent = Option.some b.id)

/-- The child with the greatest supporting weight, if any child has positive
support; ties keep the earliest child in view order (views are kept in
arrival order, so ids are increasing and the tie-break is the stable
identity ordering of the spec). -/
def bestChild (st : TLState) (latest : List (Nat × HBlock))
    (cs : List HBlock) : Option HBlock :=
  cs.foldl
    (fun best c =>
      match best with
      | Option.none =>
        if scoreOf st latest c.id > 0 then Option.some c else Option.none
      | Option.some cur =>
        if scoreOf st latest c.id > scoreOf st latest cur.id then Option.some c
        else Option.some cur)
    Option.none

def ghostWalk (st : TLState) (msgs : List HBlock)
    (latest : List (Nat × HBlock)) : Nat → HBlock → HBlock
  | 0, cur => cur
  | fuel + 1, cur =>
    match bestChild st latest (childrenOf msgs cur) with
    | Option.none => cur
    | Option.some c => ghostWalk st msgs latest fuel c

/-- Modelled from the spec: `View.estimate()` for the blockchain protocol —
GHOST fork choice from genesis, repeatedly descending into the child with
the greatest supporting weight and stopping when no child has support. -/
def viewEstimate (st : TLState) (msgs : List HBlock) : HBlock :=
  ghostWalk st msgs (latestMessages st msgs) msgs.length genesisBlock

/-- Embedding of `TestLangCBC.make_block`: validates the validator and the
freshness of the block name (raising ValueErrors), then has the validator
produce a block on its fork-choice head (modelled from the spec:
`Network.get_message_from_validator` builds the message from the validator's
own view, assigns the next sequence number and adds it to that view),
appends to the blockchain list when the estimate is not None, and records
the block under its name. -/
def make_block (st : TLState) (v : Nat) (name : String) :
    TLState × Option TLErr :=
  if st.hasValidator v = false then
    (st, Option.some (TLErr.valueError "Validator does not exist"))
  else if (st.blocks.lookup name).isSome then
    (st, Option.some (TLErr.valueError "Block already exists"))
  else
    let view := st.viewOf v
    let head := viewEstimate st view
    let seq : Nat :=
      match latestOf v view with
      | Option.none => 0
      | Option.some b => b.sequence_number + 1
    let nb : HBlock :=
      { id := st.nextId, parent := Option.some head.id,
        chain := st.nextId :: head.chain, sender := Option.some v,
        sequence_number := seq }
    let st1 := st.setView v (view ++ [nb])
    let st2 := { st1 with nextId := st1.nextId + 1 }
    let st3 :=
      if nb.parent.isSome then
        { st2 with blockchain := st2.blockchain ++ [(nb, head)] }
      else st2
    ({ st3 with blocks := st3.blocks ++ [(name, nb)] }, Option.none)

/-- Embedding of `TestLangCBC.send_block`: validates the validator and the
existence of the block name (raising ValueErrors), raises an Exception when
the validator's view already holds the block, and otherwise propagates the
message to the validator (modelled from the spec:
`Network.propagate_message_to_validator` adds the message to the
validator's view). -/
def send_block (st : TLState) (v : Nat) (name : String) :
    TLState × Option TLErr :=
  if st.hasValidator v = false then
    (st, Option.some (TLErr.valueError "Validator does not exist"))
  else
    match st.blocks.lookup name with
    | Option.none => (st, Option.some (TLErr.valueError "Block does not exist"))
    | Option.some block =>
      if block ∈ st.viewOf v then
        (st, Option.some (TLErr.exception "Validator has already seen block"))
      else
        (st.setView v (st.viewOf v ++ [block]), Option.none)

/-- Embedding of `TestLangCBC.check_head_equals_block`: validates, then
asserts that the named block is the validator's fork choice. -/
def check_head_equals_block (st : TLState) (v : Nat) (name : String) :
    TLState × Option TLErr :=
  if st.hasValidator v = false then
    (st, Option.some (TLErr.valueError "Validator does not exist"))
  else
    match st.blocks.lookup name with
    | Option.none => (st, Option.some (TLErr.valueError "Block does not exist"))
    | Option.some block =>
      if block = viewEstimate st (st.viewOf v) then (st, Option.none)
      else (st, Option.some (TLErr.assertionError "head mismatch"))

/-- Embedding of `TestLangCBC.check_safety`: validates, runs the validator's
safety update (modelled from the spec: the clique-oracle update of the
validator's last finalized block, abstracted as the updSafe argument since
the CliqueOracle is not among the sources), then asserts that the named
block does not conflict with the last finalized block, if any. -/
def check_safety (updSafe : TLState → Nat → TLState) (st : TLState) (v : Nat)
    (name : String) : TLState × Option TLErr :=
  if st.hasValidator v = false then
    (st, Option.some (TLErr.valueError "Validator does not exist"))
  else
    match st.blocks.lookup name with
    | Option.none => (st, Option.some (TLErr.valueError "Block does not exist"))
    | Option.some block =>
      let st2 := updSafe st v
      match (st2.last_finalized.lookup v).getD Option.none with
      | Option.none => (st2, Option.none)
      | Option.some lfb =>
        if block.conflicts_with lfb then
          (st2, Option.some (TLErr.assertionError "safety assert failed"))
        else (st2, Option.none)

/-- Embedding of `TestLangCBC.no_safety`: as check_safety, but asserts that
the named block does conflict with the last finalized block, if any. -/
def no_safety (updSafe : TLState → Nat → TLState) (st : TLState) (v : Nat)
    (name : String) : TLState × Option TLErr :=
  if st.hasValidator v = false then
    (st, Option.some (TLErr.valueError "Validator does not exist"))
  else
    match st.blocks.lookup name with
    | Option.none => (st, Option.some (TLErr.valueError "Block does not exist"))
    | Option.some block =>
      let st2 := updSafe st v
      match (st2.last_finalized.lookup v).getD Option.none with
      | Option.none => (st2, Option.none)
      | Option.some lfb =>
        if block.conflicts_with lfb then (st2, Option.none)
        else (st2, Option.some (TLErr.assertionError "no-safety assert failed"))

def rrSteps (st : TLState) : List (Nat × Nat × String) → TLState × Option TLErr
  | [] => (st, Option.none)
  | (maker, receiver, name) :: rest =>
    match make_block st maker name with
    | (st1, Option.some e) => (st1, Option.some e)
    | (st1, Option.none) =>
      match send_block st1 receiver name with
      | (st2, Option.some e) => (st2, Option.some e)
      | (st2, Option.none) => rrSteps st2 rest

/-- Embedding of `TestLangCBC.round_robin`: validates the validator and the
freshness of the final block name, then rotates the name-sorted validator
list to start at the given validator and has each one make a block and send
it to the next; the randomly generated intermediate block names are supplied
by the nameSupply argument (modelling the random source). -/
def round_robin (nameSupply : List String) (st : TLState) (v : Nat)
    (name : String) : TLState × Option TLErr :=
  if st.hasValidator v = false then
    (st, Option.some (TLErr.valueError "Validator does not exist"))
  else if (st.blocks.lookup name).isSome then
    (st, Option.some (TLErr.valueError "Block already exists"))
  else
    let sorted := st.validators.map Prod.fst
    let start := sorted.indexOf v
    let rotated := sorted.drop start ++ sorted.take start
    let n := rotated.length
    let names := nameSupply.take (n - 1) ++ [name]
    let steps := (List.range n).map
      (fun i => (rotated.getD i 0, rotated.getD ((i + 1) % n) 0, names.getD i name))
    rrSteps st steps

/-- Runs a list of harness operations in order, stopping at the first raised
error, as `parse` does for a scenario string. -/
def seqOps (st : TLState) : List (TLState → TLState × Option TLErr) →
    TLState × Option TLErr
  | [] => (st, Option.none)
  | f :: rest =>
    match f st with
    | (st1, Option.none) => seqOps st1 rest
    | (st1, Option.some e) => (st1, Option.some e)

/-- The initial harness state of the concrete two-validator scenario with
weights 10 and 11: both views seeded with the genesis block. -/
def initStateTwo : TLState :=
  { validators := [(0, 10), (1, 11)]
    views := [(0, [genesisBlock]), (1, [genesisBlock])]
    last_finalized := [(0, Option.none), (1, Option.none)]
    blocks := []
    blockchain := []
    nextId := 1 }

/-- The concrete scenario of the spec: validator 1 builds A and sends it to
validator 0, validator 0 builds B on top and sends it to validator 1, and so
on alternately through C and D, each block sent to the other validator. -/
def runTwoValidatorABCD : TLState × Option TLErr :=
  seqOps initStateTwo
    [fun st => make_block st 1 "A", fun st => send_block st 0 "A",
     fun st => make_block st 0 "B", fun st => send_block st 1 "B",
     fun st => make_block st 1 "C", fun st => send_block st 0 "C",
     fun st => make_block st 0 "D", fun st => send_block st 1 "D"]

/-- The state after validator 1 makes block A from the initial two-validator
state (used to instantiate witnesses on concrete inputs). -/
def stA : TLState := (make_block initStateTwo 1 "A").1

/-- The concrete block A produced by validator 1 in `stA`. -/
def blockA : HBlock :=
  { id := 1, parent := Option.some 0, chain := [1, 0],
    sender := Option.some 1, sequence_number := 0 }

/-! ### Helper lemmas -/

theorem height_le_of_is_in_blockchain (x : Chain) :
    ∀ y : Chain, x.is_in_blockchain y = true → x.height ≤ y.height := by
  intro y
  induction y with
  | genesis c =>
    intro h
    unfold Chain.is_in_blockchain at h
    by_cases hx : x = Chain.genesis c
    · subst hx; exact le_refl _
    · simp [hx] at h
  | block p c s ih =>
    intro h
    unfold Chain.is_in_blockchain at h
    by_cases hx : x = Chain.block p c s
    · subst hx; exact le_refl _
    · simp [hx] at h
      exact Nat.le_succ_of_le (ih h)

theorem deep_copy_chain_eq (c : Chain) : deep_copy_chain c = c := by
  induction c with
  | genesis v => rfl
  | block p v s ih => simp [deep_copy_chain, ih]

theorem update_loop_ok_cases (oracle : OrderBet → Int) (v : OrderView) :
    ∀ l v2, update_loop oracle v l = Except.ok v2 →
      ((∀ bet ∈ l, ¬ oracle bet > 0) ∧ v2 = v) ∨
      (∃ bet, firstSafe oracle l = Option.some bet ∧ oracle bet > 0 ∧
        v2.last_finalized_estimate = Option.some bet ∧
        v2.last_fault_tolerance = oracle bet ∧
        v2.latest_messages = v.latest_messages) := by
  intro l
  induction l with
  | nil =>
    intro v2 h
    unfold update_loop at h
    left
    refine ⟨?_, ?_⟩
    · intro bet hb
      cases hb
    · cases h
      rfl
  | cons bet rest ih =>
    intro v2 h
    unfold update_loop at h
    by_cases hpos : oracle bet > 0
    · right
      refine ⟨bet, by simp [firstSafe, hpos], hpos, ?_⟩
      simp only [hpos, if_true] at h
      cases hlfe : v.last_finalized_estimate with
      | none =>
        rw [hlfe] at h
        cases h
        exact ⟨rfl, rfl, rfl⟩
      | some lfe =>
        rw [hlfe] at h
        by_cases hc : lfe.conflicts_with bet
        · simp [hc] at h
        · simp only [hc, Bool.false_eq_true, if_false] at h
          cases h
          exact ⟨rfl, rfl, rfl⟩
    · simp only [hpos, if_false] at h
      rcases ih v2 h with ⟨hall, hv⟩ | ⟨b, hb, hrest⟩
      · left
        refine ⟨?_, hv⟩
        intro b hbmem
        rcases List.mem_cons.mp hbmem with heq | hmem
        · rw [heq]; exact hpos
        · exact hall b hmem
      · right
        exact ⟨b, by simp [firstSafe, hpos, hb], hrest⟩

theorem update_loop_no_new_conflict (oracle : OrderBet → Int) (v : OrderView)
    (m : OrderBet) (hm : v.last_finalized_estimate = Option.some m) :
    ∀ l v2, update_loop oracle v l = Except.ok v2 →
      ∀ b, v2.last_finalized_estimate = Option.some b →
        m.conflicts_with b = false := by
  intro l
  induction l with
  | nil =>
    intro v2 h b hb
    unfold update_loop at h
    cases h
    rw [hm] at hb
    cases hb
    simp [OrderBet.conflicts_with]
  | cons bet rest ih =>
    intro v2 h b hb
    unfold update_loop at h
    by_cases hpos : oracle bet > 0
    · simp only [hpos, if_true] at h
      rw [hm] at h
      by_cases hc : m.conflicts_with bet
      · simp [hc] at h
      · simp only [hc, Bool.false_eq_true, if_false] at h
        cases h
        simp only at hb
        cases hb
        exact Bool.not_eq_true _ ▸ hc
    · simp only [hpos, if_false] at h
      exact ih v2 h b hb

/-! ### Claim theorems C2, C3, C7, C8 -/

/-- C2: for every pair of integer-protocol messages b and m whose estimates
are integers, `Bet.conflicts_with` returns true if and only if the two
estimates are unequal (and false if and only if they are equal). -/
theorem integer_conflicts_iff_unequal (b m : Bet) (nb nm : Int)
    (hb : b.estimate = PyVal.int nb) (hm : m.estimate = PyVal.int nm) :
    (b.conflicts_with m = Except.ok true ↔ nb ≠ nm) ∧
    (b.conflicts_with m = Except.ok false ↔ nb = nm) := by
  unfold Bet.conflicts_with
  rw [hb, hm]
  simp [PyVal.isInt]

theorem integer_conflicts_iff_unequal_witness :
    (Bet.conflicts_with ⟨PyVal.int 1, [], 0, 0, 0⟩ ⟨PyVal.int 2, [], 1, 0, 0⟩
        = Except.ok true ↔ (1 : Int) ≠ 2) ∧
    (Bet.conflicts_with ⟨PyVal.int 1, [], 0, 0, 0⟩ ⟨PyVal.int 2, [], 1, 0, 0⟩
        = Except.ok false ↔ (1 : Int) = 2) :=
  integer_conflicts_iff_unequal ⟨PyVal.int 1, [], 0, 0, 0⟩ ⟨PyVal.int 2, [], 1, 0, 0⟩
    1 2 rfl rfl

/-- C3: constructing an integer-protocol Bet with a non-integer estimate
fails immediately with a validation error, and every successfully
constructed Bet carries exactly the given, integer-shaped estimate (no
silent coercion). -/
theorem bet_init_validates_estimate (est : PyVal) (j : List (Nat × Nat))
    (s sq dh : Nat) :
    (est.isInt = false →
      Bet.init est j s sq dh = Except.error "AssertionError: estimate should be an integer") ∧
    (∀ b : Bet, Bet.init est j s sq dh = Except.ok b →
      b.estimate = est ∧ est.isInt = true) := by
  constructor
  · intro h
    unfold Bet.init
    simp [h]
  · intro b hb
    unfold Bet.init at hb
    by_cases h : est.isInt = true
    · simp [h] at hb
      exact ⟨by rw [← hb], h⟩
    · simp [h] at hb

theorem bet_init_validates_estimate_witness :
    Bet.init (PyVal.str "q") [] 0 0 0
      = Except.error "AssertionError: estimate should be an integer" :=
  (bet_init_validates_estimate (PyVal.str "q") [] 0 0 0).1 rfl

/-- C7: if b2 is built by extending b1's chain (b1 is in the chain of b2's
parent), then `b1.is_in_blockchain b2` is true and `b2.is_in_blockchain b1`
is false; and two distinct genesis blocks are in neither direction in each
other's blockchain. -/
theorem is_in_blockchain_asymmetry :
    (∀ (b1 p : Chain) (c s : Nat), b1.is_in_blockchain p = true →
      b1.is_in_blockchain (Chain.block p c s) = true ∧
      (Chain.block p c s).is_in_blockchain b1 = false) ∧
    (∀ v0 v1 : Nat, v0 ≠ v1 →
      (Chain.genesis v0).is_in_blockchain (Chain.genesis v1) = false ∧
      (Chain.genesis v1).is_in_blockchain (Chain.genesis v0) = false) := by
  constructor
  · intro b1 p c s h
    constructor
    · unfold Chain.is_in_blockchain
      by_cases hx : b1 = Chain.block p c s
      · simp [hx]
      · simp [hx, h]
    · by_contra hcon
      simp only [Bool.not_eq_false] at hcon
      have h1 : b1.height ≤ p.height := height_le_of_is_in_blockchain b1 p h
      have h2 : (Chain.block p c s).height ≤ b1.height :=
        height_le_of_is_in_blockchain _ b1 hcon
      have h3 : (Chain.block p c s).height = p.height + 1 := rfl
      omega
  · intro v0 v1 hne
    constructor
    · unfold Chain.is_in_blockchain
      simp [hne]
    · unfold Chain.is_in_blockchain
      simp [Ne.symm hne]

theorem is_in_blockchain_asymmetry_witness :
    ((Chain.genesis 7).is_in_blockchain (Chain.block (Chain.genesis 7) 0 0) = true ∧
     (Chain.block (Chain.genesis 7) 0 0).is_in_blockchain (Chain.genesis 7) = false) ∧
    ((Chain.genesis 0).is_in_blockchain (Chain.genesis 1) = false ∧
     (Chain.genesis 1).is_in_blockchain (Chain.genesis 0) = false) :=
  ⟨is_in_blockchain_asymmetry.1 (Chain.genesis 7) (Chain.genesis 7) 0 0 (by decide),
   is_in_blockchain_asymmetry.2 0 1 (by decide)⟩

/-- C8: for every message, its shallow copy and its deep copy are each equal
to the original message and equal to each other under content equality. -/
theorem copies_equal_original (m : OMessage) :
    message_eq m (shallow_copy m) = true ∧
    message_eq m (deep_copy m) = true ∧
    message_eq (shallow_copy m) (deep_copy m) = true := by
  have hdc : deep_copy m = m := by
    unfold deep_copy
    cases m with
    | mk est j s sq =>
      cases est with
      | none => simp
      | some c => simp [deep_copy_chain_eq]
  have hsc : shallow_copy m = m := rfl
  rw [hdc, hsc]
  unfold message_eq
  simp

/-! ### Claim theorems C1, C9 -/

/-- C1: safety-oracle monotonicity in `OrderView.update_safe_estimates` —
whenever an update completes and `last_finalized_estimate` was already set
to m, the resulting finalized estimate (whether unchanged or newly
recorded from a positive-fault-tolerance latest message) does not conflict
with m.  This holds for every oracle function: the in-loop assertion aborts
any update that would finalize a conflicting estimate before the record is
made. -/
theorem order_safety_monotonic (oracle : OrderBet → Int) (v v2 : OrderView)
    (m : OrderBet) (hm : v.last_finalized_estimate = Option.some m)
    (h : v.update_safe_estimates oracle = Except.ok v2)
    (b : OrderBet) (hb : v2.last_finalized_estimate = Option.some b) :
    m.conflicts_with b = false :=
  update_loop_no_new_conflict oracle v m hm v.latest_messages v2 h b hb

theorem order_safety_monotonic_witness :
    OrderBet.conflicts_with ⟨["dog"], 0, 0⟩ ⟨["dog"], 0, 0⟩ = false :=
  order_safety_monotonic (fun _ => 1)
    ⟨[⟨["dog"], 0, 0⟩], Option.some ⟨["dog"], 0, 0⟩, 1⟩
    ⟨[⟨["dog"], 0, 0⟩], Option.some ⟨["dog"], 0, 0⟩, 1⟩
    ⟨["dog"], 0, 0⟩ rfl rfl ⟨["dog"], 0, 0⟩ rfl

/-- C9: a fresh OrderView has `last_finalized_estimate = None` and
`last_fault_tolerance = 0`; every completed `update_safe_estimates` call
either leaves both fields unchanged (exactly when no latest message has
positive fault tolerance) or records the first latest message with positive
fault tolerance together with that positive value and stops scanning; hence
the invariant that a set `last_finalized_estimate` comes with a positive
`last_fault_tolerance` is preserved. -/
theorem order_view_finalization_invariant :
    (∀ msgs, (OrderView.mk_init msgs).last_finalized_estimate = Option.none ∧
      (OrderView.mk_init msgs).last_fault_tolerance = 0) ∧
    (∀ (oracle : OrderBet → Int) (v v2 : OrderView),
      v.update_safe_estimates oracle = Except.ok v2 →
      ((∀ bet ∈ v.latest_messages, ¬ oracle bet > 0) ∧ v2 = v) ∨
      (∃ bet, firstSafe oracle v.latest_messages = Option.some bet ∧
        oracle bet > 0 ∧
        v2.last_finalized_estimate = Option.some bet ∧
        v2.last_fault_tolerance = oracle bet ∧
        v2.latest_messages = v.latest_messages)) ∧
    (∀ (oracle : OrderBet → Int) (v v2 : OrderView),
      v.update_safe_estimates oracle = Except.ok v2 →
      (v.last_finalized_estimate ≠ Option.none → v.last_fault_tolerance > 0) →
      (v2.last_finalized_estimate ≠ Option.none → v2.last_fault_tolerance > 0)) := by
  refine ⟨fun msgs => ⟨rfl, rfl⟩, ?_, ?_⟩
  · intro oracle v v2 h
    exact update_loop_ok_cases oracle v v.latest_messages v2 h
  · intro oracle v v2 h hinv hne
    rcases update_loop_ok_cases oracle v v.latest_messages v2 h with
      ⟨_, hv⟩ | ⟨b, _, hpos, _, hft, _⟩
    · rw [hv] at hne ⊢
      exact hinv hne
    · rw [hft]
      exact hpos

theorem order_view_finalization_invariant_witness :
    ((∀ bet ∈ (OrderView.mk_init [⟨["dog"], 0, 0⟩]).latest_messages,
        ¬ (fun _ : OrderBet => (1 : Int)) bet > 0) ∧
      (⟨[⟨["dog"], 0, 0⟩], Option.some ⟨["dog"], 0, 0⟩, 1⟩ : OrderView)
        = OrderView.mk_init [⟨["dog"], 0, 0⟩]) ∨
    (∃ bet, firstSafe (fun _ : OrderBet => (1 : Int))
        (OrderView.mk_init [⟨["dog"], 0, 0⟩]).latest_messages = Option.some bet ∧
      (fun _ : OrderBet => (1 : Int)) bet > 0 ∧
      (⟨[⟨["dog"], 0, 0⟩], Option.some ⟨["dog"], 0, 0⟩, 1⟩ : OrderView).last_finalized_estimate
        = Option.some bet ∧
      (⟨[⟨["dog"], 0, 0⟩], Option.some ⟨["dog"], 0, 0⟩, 1⟩ : OrderView).last_fault_tolerance
        = (fun _ : OrderBet => (1 : Int)) bet ∧
      (⟨[⟨["dog"], 0, 0⟩], Option.some ⟨["dog"], 0, 0⟩, 1⟩ : OrderView).latest_messages
        = (OrderView.mk_init [⟨["dog"], 0, 0⟩]).latest_messages) :=
  order_view_finalization_invariant.2.1 (fun _ => 1)
    (OrderView.mk_init [⟨["dog"], 0, 0⟩])
    ⟨[⟨["dog"], 0, 0⟩], Option.some ⟨["dog"], 0, 0⟩, 1⟩ rfl

/-! ### Claim theorems C10 -/

/-- C10 counterexample: the token X5-A matches the token pattern exactly
(letter group X, digit group 5, dash, name group A) and its letter group X
is not a registered handler key, yet with validator names 0 and 1 `parse`
raises the validator-not-found ValueError from resolving validator 5 —
which happens before the handler-table lookup — not a KeyError; so a
ValueError is also raised on a token whose regex match does reconstruct the
whole token. -/
theorem parse_unregistered_letter_counterexample :
    parse_token [0, 1] "X5-A".toList = ParseOutcome.validatorMissing ∧
    parse_token [0, 1] "X5-A".toList ≠ ParseOutcome.keyError ∧
    reconstructs "X5-A".toList := by
  decide

/-- C10 (amended): for every token that matches the token pattern exactly,
whose leading letter group is not a registered handler key, and whose digit
group is empty or names an existing validator, `parse` raises a KeyError
from the handler-table lookup; the Bad-token ValueError is raised exactly
when the regex match does not reconstruct the whole token; and when the
token reconstructs but its nonempty digit group names no existing validator,
the validator-not-found ValueError is raised before the handler lookup. -/
theorem parse_unregistered_letter_keyerror (validatorNames : List Nat)
    (token : List Char) :
    (reconstructs token →
      String.mk (tokenGroups token).1 ∉ HANDLER_KEYS →
      ((tokenGroups token).2.1 = [] ∨
        digitsToNat (tokenGroups token).2.1 ∈ validatorNames) →
      parse_token validatorNames token = ParseOutcome.keyError) ∧
    (parse_token validatorNames token = ParseOutcome.badToken ↔ ¬ reconstructs token) ∧
    (reconstructs token →
      (tokenGroups token).2.1 ≠ [] →
      digitsToNat (tokenGroups token).2.1 ∉ validatorNames →
      parse_token validatorNames token = ParseOutcome.validatorMissing) := by
  unfold parse_token reconstructs
  refine ⟨?_, ?_, ?_⟩
  · intro hrec hkey hval
    rw [if_neg (by exact fun hc => hc hrec)]
    rw [if_neg ?_, if_pos hkey]
    rintro ⟨hne, hmem⟩
    rcases hval with hemp | hmm
    · exact hne hemp
    · exact hmem hmm
  · constructor
    · intro h
      by_cases hrec :
        (tokenGroups token).1 ++ (tokenGroups token).2.1 ++ (tokenGroups token).2.2.1
            ++ (tokenGroups token).2.2.2 = token
      · rw [if_neg (by exact fun hc => hc hrec)] at h
        split at h
        · cases h
        · split at h
          · cases h
          · cases h
      · exact hrec
    · intro h
      rw [if_pos h]
  · intro hrec hne hmem
    rw [if_neg (by exact fun hc => hc hrec)]
    rw [if_pos ⟨hne, hmem⟩]

theorem parse_unregistered_letter_keyerror_witness :
    parse_token [0, 1] "X0-A".toList = ParseOutcome.keyError :=
  (parse_unregistered_letter_keyerror [0, 1] "X0-A".toList).1
    (by decide) (by decide) (by decide)

/-! ### Claim theorems C4, C5, C6 -/

/-- C4: duplicate delivery is a usage error — for an existing validator and
an existing block, `send_block` raises an Exception when the block is
already in the validator's view, and otherwise propagates the message into
that view. -/
theorem send_block_duplicate_raises (st : TLState) (v : Nat) (name : String)
    (b : HBlock) (hv : st.hasValidator v = true)
    (hb : st.blocks.lookup name = Option.some b) :
    (b ∈ st.viewOf v →
      send_block st v name =
        (st, Option.some (TLErr.exception "Validator has already seen block"))) ∧
    (b ∉ st.viewOf v →
      send_block st v name = (st.setView v (st.viewOf v ++ [b]), Option.none)) := by
  unfold send_block
  simp only [hv, Bool.true_eq_false, if_false, hb]
  constructor
  · intro hmem
    rw [if_pos hmem]
  · intro hmem
    rw [if_neg hmem]

theorem send_block_duplicate_raises_witness :
    send_block stA 1 "A" =
      (stA, Option.some (TLErr.exception "Validator has already seen block")) ∧
    send_block stA 0 "A" = (stA.setView 0 (stA.viewOf 0 ++ [blockA]), Option.none) :=
  ⟨(send_block_duplicate_raises stA 1 "A" blockA (by decide) (by decide)).1 (by decide),
   (send_block_duplicate_raises stA 0 "A" blockA (by decide) (by decide)).2 (by decide)⟩

/-- C5: validation errors are immediate and atomic — `make_block` on an
already-present block name and `send_block` on an unknown block name raise a
ValueError, and every handler raises a ValueError on a validator outside the
validator set; in each case the raise happens at the validation step before
any mutation, so the returned harness state (blocks mapping, blockchain
list, every view) is exactly the original state. -/
theorem validation_errors_atomic :
    (∀ (st : TLState) (v : Nat) (name : String),
      (st.blocks.lookup name).isSome = true →
      ∃ m, make_block st v name = (st, Option.some (TLErr.valueError m))) ∧
    (∀ (st : TLState) (v : Nat) (name : String),
      st.blocks.lookup name = Option.none →
      ∃ m, send_block st v name = (st, Option.some (TLErr.valueError m))) ∧
    (∀ (st : TLState) (v : Nat) (name : String),
      st.hasValidator v = false →
      make_block st v name =
          (st, Option.some (TLErr.valueError "Validator does not exist")) ∧
      send_block st v name =
          (st, Option.some (TLErr.valueError "Validator does not exist")) ∧
      check_head_equals_block st v name =
          (st, Option.some (TLErr.valueError "Validator does not exist")) ∧
      (∀ updSafe,
        check_safety updSafe st v name =
            (st, Option.some (TLErr.valueError "Validator does not exist")) ∧
        no_safety updSafe st v name =
            (st, Option.some (TLErr.valueError "Validator does not exist"))) ∧
      (∀ nameSupply,
        round_robin nameSupply st v name =
            (st, Option.some (TLErr.valueError "Validator does not exist")))) := by
  refine ⟨?_, ?_, ?_⟩
  · intro st v name hname
    unfold make_block
    cases hval : st.hasValidator v with
    | false =>
      rw [if_pos rfl]
      exact ⟨"Validator does not exist", rfl⟩
    | true =>
      rw [if_neg (by simp)]
      rw [if_pos hname]
      exact ⟨"Block already exists", rfl⟩
  · intro st v name hname
    unfold send_block
    cases hval : st.hasValidator v with
    | false =>
      rw [if_pos rfl]
      exact ⟨"Validator does not exist", rfl⟩
    | true =>
      rw [if_neg (by simp)]
      rw [hname]
      exact ⟨"Block does not exist", rfl⟩
  · intro st v name hval
    refine ⟨?_, ?_, ?_, ?_, ?_⟩
    · unfold make_block
      rw [if_pos hval]
    · unfold send_block
      rw [if_pos hval]
    · unfold check_head_equals_block
      rw [if_pos hval]
    · intro updSafe
      constructor
      · unfold check_safety
        rw [if_pos hval]
      · unfold no_safety
        rw [if_pos hval]
    · intro nameSupply
      unfold round_robin
      rw [if_pos hval]

theorem validation_errors_atomic_witness :
    (∃ m, make_block stA 0 "A" = (stA, Option.some (TLErr.valueError m))) ∧
    (∃ m, send_block stA 0 "Z" = (stA, Option.some (TLErr.valueError m))) ∧
    make_block stA 5 "E" =
      (stA, Option.some (TLErr.valueError "Validator does not exist")) :=
  ⟨validation_errors_atomic.1 stA 0 "A" (by decide),
   validation_errors_atomic.2.1 stA 0 "Z" (by decide),
   (validation_errors_atomic.2.2 stA 5 "E" (by decide)).1⟩

/-- C6: in the concrete two-validator scenario with weights 10 and 11 in
which the validators alternately build blocks A, B, C, D each on top of the
previous one and send each to the other validator, the run raises no error,
the receiving validator's fork-choice head after D equals D (as does the
producer's), and the heights are A=2, B=3, C=4, D=5 with genesis height 1. -/
theorem two_validator_scenario_heights_and_head :
    runTwoValidatorABCD.2 = Option.none ∧
    (runTwoValidatorABCD.1.blocks.lookup "D")
      = Option.some (viewEstimate runTwoValidatorABCD.1
          (runTwoValidatorABCD.1.viewOf 1)) ∧
    (check_head_equals_block runTwoValidatorABCD.1 1 "D").2 = Option.none ∧
    (check_head_equals_block runTwoValidatorABCD.1 0 "D").2 = Option.none ∧
    (runTwoValidatorABCD.1.blocks.lookup "A").map HBlock.height = Option.some 2 ∧
    (runTwoValidatorABCD.1.blocks.lookup "B").map HBlock.height = Option.some 3 ∧
    (runTwoValidatorABCD.1.blocks.lookup "C").map HBlock.height = Option.some 4 ∧
    (runTwoValidatorABCD.1.blocks.lookup "D").map HBlock.height = Option.some 5 ∧
    genesisBlock.height = 1 := by
  decide

end CasperSpec
